import Mathlib

/-!
Shallow embedding of vkdownloader.py: page-metadata extraction
(get_videos), filename sanitisation, resolution selection
(get_resolution), streamed download (download_file), and the
multiprocessing pool phase of main (worker, pool_map, runAll).

Modelling conventions:
* Python str is List Char (wrapped in String at the interfaces).
* The two regular expressions of get_videos are compiled into
  deterministic scanners; for these patterns (literal text, a greedy
  digit group, a greedy whitespace gap, a greedy non-quote group, each
  followed by a character outside its class) greedy scanning without
  backtracking coincides with re.findall.
* A Python dict is an insertion-ordered association list; inserting an
  existing key updates it in place, a new key is appended.
* Fallible code returns Except PyErr; a raised exception is .error.
-/

namespace VKDL

/-- Exception kinds that the translated code can raise. -/
inductive PyErr where
  | indexError
  | httpError
  | typeError
  | keyError
  | eofError
  deriving Repr, DecidableEq

/-! ### Character classes

The source uses Python re classes for str patterns. Python \w is
Unicode-aware (letters, digits, underscore); the model covers the ASCII
word characters, the Latin-1 letter blocks U+00C0-U+00D6, U+00D8-U+00F6
and U+00F8-U+00FF (exactly the Latin-1 letters), and the Hangul
conjoining jamo and precomposed syllables (all of Unicode category Lo,
hence matched by \w). Python \s for str is modelled by its ASCII part. -/

/-- Digits 0-9, the class \d of pattern_url. -/
def isAsciiDigit (c : Char) : Bool := '0' ≤ c && c ≤ '9'

/-- ASCII letters. -/
def isAsciiLetter (c : Char) : Bool := ('a' ≤ c && c ≤ 'z') || ('A' ≤ c && c ≤ 'Z')

/-- Latin-1 letters (the letter codepoints of U+00C0-U+00FF). -/
def isLatin1Letter (c : Char) : Bool :=
  ('\xC0' ≤ c && c ≤ '\xD6') || ('\xD8' ≤ c && c ≤ '\xF6') || ('\xF8' ≤ c && c ≤ '\xFF')

/-- Hangul leading-consonant jamo U+1100-U+1112. -/
def isHangulL (c : Char) : Bool := 0x1100 ≤ c.toNat && c.toNat ≤ 0x1112

/-- Hangul vowel jamo U+1161-U+1175. -/
def isHangulV (c : Char) : Bool := 0x1161 ≤ c.toNat && c.toNat ≤ 0x1175

/-- Hangul trailing-consonant jamo U+11A8-U+11C2. -/
def isHangulT (c : Char) : Bool := 0x11A8 ≤ c.toNat && c.toNat ≤ 0x11C2

/-- Hangul conjoining jamo of any of the three kinds. -/
def isHangulJamo (c : Char) : Bool := isHangulL c || isHangulV c || isHangulT c

/-- Precomposed Hangul syllables U+AC00-U+D7A3. -/
def isHangulSyl (c : Char) : Bool := 0xAC00 ≤ c.toNat && c.toNat ≤ 0xD7A3

/-- Precomposed Hangul syllable with no trailing consonant, able to
take one by composition. -/
def isHangulLV (c : Char) : Bool := isHangulSyl c && (c.toNat - 0xAC00) % 28 == 0

/-- Python \w on the modelled repertoire. -/
def isWordChar (c : Char) : Bool :=
  isAsciiLetter c || isAsciiDigit c || c == '_' || isLatin1Letter c ||
    isHangulJamo c || isHangulSyl c

/-- Python \s on the modelled repertoire (ASCII whitespace). -/
def isSpaceChar (c : Char) : Bool :=
  c == ' ' || c == '\t' || c == '\n' || c == '\r' || c == '\x0b' || c == '\x0c'

/-- The class [-\s] of the collapsing substitution in get_videos. -/
def isHyphenSpace (c : Char) : Bool := isSpaceChar c || c == '-'

/-- The complement of [^\w\s-]: characters kept by the removal step. -/
def keepChar (c : Char) : Bool := isWordChar c || isSpaceChar c || c == '-'

/-- Characters removed from both ends by str.strip of a "-_" argument. -/
def isStripChar (c : Char) : Bool := c == '-' || c == '_'

/-! ### Filename sanitisation (get_videos lines 59-61) -/

/-- Canonical Hangul composition of the Unicode normalisation
algorithm: a leading jamo followed by a vowel jamo composes into a
precomposed syllable, and a syllable without trailing consonant
followed by a trailing jamo absorbs it. This is the table-free,
algorithmic part of NFKC and is exact on these blocks. -/
def composeHangul : List Char → List Char
  | c1 :: c2 :: rest =>
    if isHangulL c1 && isHangulV c2 then
      let s := 0xAC00 + ((c1.toNat - 0x1100) * 21 + (c2.toNat - 0x1161)) * 28
      match rest with
      | t :: rest2 =>
        if isHangulT t then Char.ofNat (s + t.toNat - 0x11A7) :: composeHangul rest2
        else Char.ofNat s :: composeHangul (t :: rest2)
      | [] => [Char.ofNat s]
    else if isHangulLV c1 && isHangulT c2 then
      Char.ofNat (c1.toNat + c2.toNat - 0x11A7) :: composeHangul rest
    else c1 :: composeHangul (c2 :: rest)
  | l => l

/-- Models unicodedata.normalize of the NFKC form on the modelled
repertoire: ASCII, Latin-1 letters, Hangul jamo and Hangul syllables
are each NFKC-stable in isolation, and the only normalisation NFKC
performs on their sequences is the canonical Hangul composition
above. -/
def normalizeNFKC (l : List Char) : List Char := composeHangul l

/-- Single pass of the substitution replacing every maximal run of
[-\s] characters by one hyphen; the flag records whether the scanner is
inside such a run. -/
def collapseAux : Bool → List Char → List Char
  | _, [] => []
  | inRun, c :: rest =>
    if isHyphenSpace c then
      if inRun then collapseAux true rest
      else '-' :: collapseAux true rest
    else c :: collapseAux false rest

/-- Models re.sub of pattern [-\s]+ with replacement "-". -/
def collapseRuns (l : List Char) : List Char := collapseAux false l

/-- Models str.strip with an explicit character set: drop matching
characters from both ends. -/
def stripEnds (p : Char → Bool) (l : List Char) : List Char :=
  ((l.dropWhile p).reverse.dropWhile p).reverse

/-- Lines 59-61 of get_videos: NFKC normalisation, removal of
[^\w\s-], collapsing [-\s]+ to "-", and strip of "-_". -/
def sanitizeL (l : List Char) : List Char :=
  stripEnds isStripChar (collapseRuns ((normalizeNFKC l).filter keepChar))

/-- String-level wrapper of sanitizeL. -/
def sanitize (s : String) : String := ⟨sanitizeL s.data⟩

/-! ### Regex scanners of get_videos -/

/-- Numeric value of a digit run, as built by int of the captured group. -/
def digitsVal (ds : List Char) : Nat :=
  ds.foldl (fun n c => 10 * n + (c.toNat - 48)) 0

/-- Attempt to match pattern_url at the head of the text. The pattern is
a quote, the literal url, a nonempty digit run, a quote, a colon,
optional whitespace, and a nonempty quoted value. On success, return
the captured resolution and value with the unconsumed tail. -/
def matchUrlAt : List Char → Option ((Int × String) × List Char)
  | '"' :: 'u' :: 'r' :: 'l' :: s =>
    let ds := s.takeWhile isAsciiDigit
    let s1 := s.dropWhile isAsciiDigit
    if ds.isEmpty then none else
    match s1 with
    | '"' :: ':' :: s2 =>
      match s2.dropWhile isSpaceChar with
      | '"' :: s4 =>
        let v := s4.takeWhile (fun c => !(c == '"'))
        let s5 := s4.dropWhile (fun c => !(c == '"'))
        if v.isEmpty then none else
        match s5 with
        | '"' :: s6 => some ((Int.ofNat (digitsVal ds), String.mk v), s6)
        | _ => none
      | _ => none
    | _ => none
  | _ => none

/-- Attempt to match pattern_name at the head of the text: the literal
quoted title key, a colon, optional whitespace, and a nonempty quoted
value. -/
def matchTitleAt : List Char → Option (String × List Char)
  | '"' :: 't' :: 'i' :: 't' :: 'l' :: 'e' :: '"' :: ':' :: s2 =>
    match s2.dropWhile isSpaceChar with
    | '"' :: s4 =>
      let v := s4.takeWhile (fun c => !(c == '"'))
      let s5 := s4.dropWhile (fun c => !(c == '"'))
      if v.isEmpty then none else
      match s5 with
      | '"' :: s6 => some (String.mk v, s6)
      | _ => none
    | _ => none
  | _ => none

/-- Left-to-right non-overlapping scan collecting pattern_url matches.
The fuel starts at the text length; every step consumes at least one
character, so the fuel never runs out before the text does. -/
def scanUrl : Nat → List Char → List (Int × String)
  | 0, _ => []
  | _, [] => []
  | fuel + 1, c :: rest =>
    match matchUrlAt (c :: rest) with
    | some (m, rest2) => m :: scanUrl fuel rest2
    | none => scanUrl fuel rest

/-- Models re.findall of pattern_url over the text. -/
def findUrlMatches (l : List Char) : List (Int × String) := scanUrl l.length l

/-- Left-to-right non-overlapping scan collecting pattern_name matches. -/
def scanTitle : Nat → List Char → List String
  | 0, _ => []
  | _, [] => []
  | fuel + 1, c :: rest =>
    match matchTitleAt (c :: rest) with
    | some (m, rest2) => m :: scanTitle fuel rest2
    | none => scanTitle fuel rest

/-- Models re.findall of pattern_name over the text. -/
def findTitleMatches (l : List Char) : List String := scanTitle l.length l

/-! ### Python dict as insertion-ordered association list -/

/-- Python dict assignment: update an existing key in place, append a
new key at the end. -/
def dictInsert (k : Int) (v : String) : List (Int × String) → List (Int × String)
  | [] => [(k, v)]
  | (k0, v0) :: rest => if k == k0 then (k, v) :: rest else (k0, v0) :: dictInsert k v rest

/-- The dict comprehension over the url matches: later occurrences of a
key override earlier ones. -/
def pyDictOfPairs (ps : List (Int × String)) : List (Int × String) :=
  ps.foldl (fun d kv => dictInsert kv.1 kv.2 d) []

/-- Python dict bracket lookup. -/
def lookupDict (k : Int) : List (Int × String) → Option String
  | [] => none
  | (k0, v) :: rest => if k == k0 then some v else lookupDict k rest

/-- Insert into an ascending list, for sorted of the key view. -/
def insertSorted (x : Int) : List Int → List Int
  | [] => [x]
  | y :: rest => if x ≤ y then x :: y :: rest else y :: insertSorted x rest

/-- Models sorted of videos.keys(): the keys in ascending order. -/
def sortKeys (d : List (Int × String)) : List Int :=
  (d.map (fun kv => kv.1)).foldr insertSorted []

/-! ### get_videos (lines 27-63) -/

/-- One script element of the parsed page: its type attribute and its
text content. BeautifulSoup parsing itself is the external collaborator;
a page is modelled as the list of script elements find_all ranges over. -/
structure Script where
  type : String
  text : String
  deriving Repr, DecidableEq

/-- Substring test, models the Python in operator on str. -/
def containsSub (needle : List Char) : List Char → Bool
  | [] => needle.isEmpty
  | c :: rest => needle.isPrefixOf (c :: rest) || containsSub needle rest

/-- The filter of lines 43-44: script elements of module type whose
text contains the marker al_video.php. -/
def isVideoScript (e : Script) : Bool :=
  e.type == "module" && containsSub ("al_video.php".data) e.text.data

/-- Lines 43-63 of get_videos. If the number of matching elements is
not one, return an empty dict and None. Otherwise scan the single
element: build the resolution dict from pattern_url matches, take the
first pattern_name match with an unguarded index (an IndexError when
there is none), sanitise it and append the fixed suffix. -/
def get_videos (page : List Script) : Except PyErr (List (Int × String) × Option String) :=
  match page.filter isVideoScript with
  | [e] =>
    let videos := pyDictOfPairs (findUrlMatches e.text.data)
    match findTitleMatches e.text.data with
    | [] => .error .indexError
    | t :: _ => .ok (videos, some (String.mk (sanitizeL t.data) ++ ".mp4"))
  | _ => .ok ([], none)

/-! ### get_resolution (lines 93-117) -/

/-- Strip of whitespace from both ends, as applied to the raw input. -/
def pyStrip (l : List Char) : List Char := stripEnds isSpaceChar l

/-- Parse of the Python int constructor on the stripped text: an
optional sign followed by a nonempty digit run. (Python additionally
accepts underscore digit grouping; that corner is not modelled and no
claim depends on it.) -/
def parsePyIntCore : List Char → Option Int
  | '+' :: ds =>
    if !ds.isEmpty && ds.all isAsciiDigit then some (Int.ofNat (digitsVal ds)) else none
  | '-' :: ds =>
    if !ds.isEmpty && ds.all isAsciiDigit then some (-(Int.ofNat (digitsVal ds))) else none
  | ds =>
    if !ds.isEmpty && ds.all isAsciiDigit then some (Int.ofNat (digitsVal ds)) else none

/-- Composition of str.strip and int on one line of input. -/
def parsePyInt (s : String) : Option Int := parsePyIntCore (pyStrip s.data)

/-- Acceptance condition of one loop iteration of get_resolution: the
line parses as an integer that is a member of the options. -/
def isValidChoice (options : List Int) (i : String) : Bool :=
  match parsePyInt i with
  | some n => decide (n ∈ options)
  | none => false

/-- Lines 104-117: loop reading lines from the external input source.
A line that parses to a member of options is returned together with the
unread rest of the input; any other line is rejected and the loop
re-prompts on the next line. Exhausting the input models end of input
(the loop never returned). -/
def get_resolution (options : List Int) : List String → Option (Int × List String)
  | [] => none
  | i :: rest =>
    match parsePyInt i with
    | some n => if n ∈ options then some (n, rest) else get_resolution options rest
    | none => get_resolution options rest

/-! ### download_file (lines 66-90) -/

/-- The observable part of a streamed GET response: the status code,
the optional content-length header, and the chunk sequence iter_content
yields. -/
structure Response where
  status : Nat
  contentLength : Option Nat
  chunks : List (List Nat)

/-- Local filesystem state: file name to byte content. -/
abbrev FS := List (String × List Nat)

/-- Create or replace a file, keeping its position when it exists. -/
def fsSet (name : String) (content : List Nat) : FS → FS
  | [] => [(name, content)]
  | (n0, c0) :: rest =>
    if name == n0 then (name, content) :: rest else (n0, c0) :: fsSet name content rest

/-- Content of a file, empty when absent. -/
def fsGet (name : String) : FS → List Nat
  | [] => []
  | (n0, c0) :: rest => if name == n0 then c0 else fsGet name rest

/-- Append a chunk to an open file. -/
def fsAppend (name : String) (chunk : List Nat) (fs : FS) : FS :=
  fsSet name (fsGet name fs ++ chunk) fs

/-- Lines 75-90. raise_for_status raises on a 4xx or 5xx status before
the destination file is touched; otherwise open of mode wb truncates
the file and every nonempty chunk is appended in order. The progress
bar is presentation only and is not modelled. -/
def download_file (fs : FS) (resp : Response) (filename : String) : Except PyErr Unit × FS :=
  if 400 ≤ resp.status ∧ resp.status < 600 then (.error .httpError, fs)
  else
    let fs1 := fsSet filename [] fs
    let fs2 := resp.chunks.foldl
      (fun acc chunk => if chunk.isEmpty then acc else fsAppend filename chunk acc) fs1
    (.ok (), fs2)

/-! ### worker and the pool phase of main (lines 120-161) -/

/-- Line 128: a worker runs download_file on one (filename, url) job.
The environment maps a url to the response of the streamed GET. The
outcome sent back to the parent is the Except component, which does not
depend on the file state, so the worker process starts from the empty
state. -/
def worker (env : String → Response) (job : String × String) : Except PyErr Unit :=
  (download_file [] (env job.2) job.1).1

/-- Observable behaviour of multiprocessing Pool.map at the call site:
the parent either receives the full list of per-job return values or
the map call re-raises a raised exception; a raised exception yields no
result list at all. Which failing job wins is nondeterministic in the
real pool; the model takes the first in job order, and every theorem
below is insensitive to that choice. -/
def pool_map (f : α → Except PyErr β) : List α → Except PyErr (List β)
  | [] => .ok []
  | j :: rest =>
    match f j with
    | .error e => .error e
    | .ok b =>
      match pool_map f rest with
      | .error e => .error e
      | .ok bs => .ok (b :: bs)

/-- Lines 158-161: the download phase of main fans the accumulated jobs
out to the pool. -/
def runAll (env : String → Response) (jobs : List (String × String)) : Except PyErr (List Unit) :=
  pool_map (worker env) jobs

/-! ### The per-page loop body of main (lines 143-156) -/

/-- The slash unescape of lines 151 and 155: re.sub replacing every
backslash-slash pair by a slash, scanning left to right. -/
def unescapeSlashes : List Char → List Char
  | [] => []
  | '\\' :: '/' :: rest => '/' :: unescapeSlashes rest
  | c :: rest => c :: unescapeSlashes rest

/-- String-level wrapper of unescapeSlashes. -/
def unescapeStr (s : String) : String := ⟨unescapeSlashes s.data⟩

/-- Lines 143-156 for a single page: run get_videos, skip the page when
the dict is empty, otherwise choose a url (prompting through
get_resolution only when more than one resolution exists) and produce
the scheduled (filename, url) job, with the unread rest of the input.
Branches the Python code cannot reach are marked as errors. -/
def processPage (page : List Script) (inputs : List String) :
    Except PyErr (Option (String × String) × List String) :=
  match get_videos page with
  | .error e => .error e
  | .ok (videos, name?) =>
    if videos.isEmpty then .ok (none, inputs)
    else
      match name? with
      | none => .error .typeError
      | some filename =>
        if 1 < videos.length then
          match get_resolution (sortKeys videos) inputs with
          | none => .error .eofError
          | some (r, rest) =>
            match lookupDict r videos with
            | some u => .ok (some (filename, unescapeStr u), rest)
            | none => .error .keyError
        else
          match videos with
          | (_, u) :: _ => .ok (some (filename, unescapeStr u), inputs)
          | [] => .ok (none, inputs)

/-! ### Concrete inputs used by the claim theorems -/

/-- Page of the C3 scenario: one module script holding the marker, two
escaped stream urls and the title My Clip!. -/
def pageTwoRes : List Script :=
  [⟨"module",
    "\"url720\": \"http:\\/\\/x\\/a.mp4\", \"url1080\": \"http:\\/\\/x\\/b.mp4\", \"title\": \"My Clip!\" al_video.php"⟩]

/-- Page with one matching block holding a url but no title key. -/
def pageNoTitle : List Script := [⟨"module", "\"url720\": \"u\" al_video.php"⟩]

/-- Page with one matching block whose title sanitises to the empty
string. -/
def pageEmptyTitle : List Script :=
  [⟨"module", "\"url720\": \"u\", \"title\": \"!!!\" al_video.php"⟩]

/-- Page with one matching block offering exactly one resolution. -/
def pageSingle : List Script :=
  [⟨"module", "\"url720\": \"u\", \"title\": \"T\" al_video.php"⟩]

/-- Response environment of the C1 counterexample: one url answers with
status 404, every other url with 200. -/
def envMixed : String → Response := fun u =>
  if u == "bad" then ⟨404, none, []⟩ else ⟨200, none, [[1]]⟩

/-- Job list of the C1 counterexample: the middle job hits the failing
url. -/
def jobsMixed : List (String × String) :=
  [("a.mp4", "good"), ("b.mp4", "bad"), ("c.mp4", "good")]

/-- Response environment where every url succeeds. -/
def envGood : String → Response := fun _ => ⟨200, none, [[1]]⟩

/-! ### Helper lemmas about the sanitisation pipeline -/

/-- A kept character outside [-\s] is a word character. -/
theorem word_of_keep_not_hs {c : Char} (hk : keepChar c = true)
    (hh : isHyphenSpace c = false) : isWordChar c = true := by
  simp only [keepChar, Bool.or_eq_true] at hk
  rcases hk with (h | h) | h
  · exact h
  · rw [isHyphenSpace, h] at hh; simp at hh
  · rw [isHyphenSpace, h] at hh; simp at hh

/-- Every character the collapsing pass emits is either the hyphen it
substitutes for a run, or an input character outside [-\s]. -/
theorem mem_collapseAux : ∀ (l : List Char) (b : Bool) (c : Char),
    c ∈ collapseAux b l → c = '-' ∨ (c ∈ l ∧ isHyphenSpace c = false) := by
  intro l
  induction l with
  | nil => intro b c hc; simp [collapseAux] at hc
  | cons x rest ih =>
    intro b c hc
    cases hx : isHyphenSpace x with
    | true =>
      cases b with
      | true =>
        simp only [collapseAux, hx, if_true] at hc
        rcases ih true c hc with h | ⟨h1, h2⟩
        · exact Or.inl h
        · exact Or.inr ⟨List.mem_cons_of_mem _ h1, h2⟩
      | false =>
        simp only [collapseAux, hx, if_true] at hc
        rcases List.mem_cons.1 hc with rfl | hc2
        · exact Or.inl rfl
        · rcases ih true c hc2 with h | ⟨h1, h2⟩
          · exact Or.inl h
          · exact Or.inr ⟨List.mem_cons_of_mem _ h1, h2⟩
    | false =>
      simp only [collapseAux, hx, Bool.false_eq_true, if_false] at hc
      rcases List.mem_cons.1 hc with rfl | hc2
      · exact Or.inr ⟨List.mem_cons_self _ _, hx⟩
      · rcases ih false c hc2 with h | ⟨h1, h2⟩
        · exact Or.inl h
        · exact Or.inr ⟨List.mem_cons_of_mem _ h1, h2⟩

/-- While inside a run, the next emitted character is outside [-\s]. -/
theorem head_collapseAux_true : ∀ (l : List Char) (c : Char),
    (collapseAux true l).head? = some c → isHyphenSpace c = false := by
  intro l
  induction l with
  | nil => intro c hc; simp [collapseAux] at hc
  | cons x rest ih =>
    intro c hc
    cases hx : isHyphenSpace x with
    | true =>
      simp only [collapseAux, hx, if_true] at hc
      exact ih c hc
    | false =>
      simp only [collapseAux, hx, Bool.false_eq_true, if_false, List.head?_cons,
        Option.some.injEq] at hc
      exact hc ▸ hx

/-- The collapsing pass never emits two adjacent [-\s] characters. -/
theorem chain_collapseAux : ∀ (l : List Char) (b : Bool),
    List.Chain' (fun a c => isHyphenSpace a = false ∨ isHyphenSpace c = false)
      (collapseAux b l) := by
  intro l
  induction l with
  | nil => intro b; simp [collapseAux]
  | cons x rest ih =>
    intro b
    cases hx : isHyphenSpace x with
    | true =>
      cases b with
      | true => simpa only [collapseAux, hx, if_true] using ih true
      | false =>
        simp only [collapseAux, hx, if_true, Bool.false_eq_true, if_false]
        rw [List.chain'_cons']
        refine ⟨fun y hy => Or.inr ?_, ih true⟩
        exact head_collapseAux_true rest y (Option.mem_def.1 hy)
    | false =>
      simp only [collapseAux, hx, Bool.false_eq_true, if_false]
      rw [List.chain'_cons']
      exact ⟨fun y _ => Or.inl hx, ih false⟩

/-- The first surviving character of dropWhile fails the predicate. -/
theorem head_dropWhile (p : Char → Bool) : ∀ (l : List Char) (c : Char),
    (l.dropWhile p).head? = some c → p c = false := by
  intro l
  induction l with
  | nil => intro c hc; simp [List.dropWhile] at hc
  | cons x rest ih =>
    intro c hc
    cases hx : p x with
    | true => rw [List.dropWhile_cons_of_pos hx] at hc; exact ih c hc
    | false =>
      rw [List.dropWhile_cons_of_neg (by simp [hx])] at hc
      simp only [List.head?_cons, Option.some.injEq] at hc
      exact hc ▸ hx

/-- dropWhile keeps a suffix of its input. -/
theorem dropWhile_isSuffix (p : Char → Bool) : ∀ l : List Char, l.dropWhile p <:+ l := by
  intro l
  induction l with
  | nil => exact List.suffix_refl _
  | cons x rest ih =>
    cases hx : p x with
    | true => rw [List.dropWhile_cons_of_pos hx]; exact ih.trans (List.suffix_cons x rest)
    | false => rw [List.dropWhile_cons_of_neg (by simp [hx])]

/-- Stripping both ends keeps a contiguous segment of the input. -/
theorem stripEnds_segment (p : Char → Bool) (l : List Char) : stripEnds p l <:+: l := by
  unfold stripEnds
  have h1 : l.dropWhile p <:+ l := dropWhile_isSuffix p l
  have h2 : (l.dropWhile p).reverse.dropWhile p <:+ (l.dropWhile p).reverse :=
    dropWhile_isSuffix p _
  have h3 : ((l.dropWhile p).reverse.dropWhile p).reverse <+: (l.dropWhile p).reverse.reverse :=
    List.reverse_prefix.2 h2
  rw [List.reverse_reverse] at h3
  exact h3.isInfix.trans h1.isInfix

/-- The first character of the stripped list fails the predicate. -/
theorem stripEnds_head (p : Char → Bool) (l : List Char) (c : Char)
    (h : (stripEnds p l).head? = some c) : p c = false := by
  unfold stripEnds at h
  rw [List.head?_reverse] at h
  have hsfx : (l.dropWhile p).reverse.dropWhile p <:+ (l.dropWhile p).reverse :=
    dropWhile_isSuffix p _
  obtain ⟨t, ht⟩ := hsfx
  have hne : (l.dropWhile p).reverse.dropWhile p ≠ [] := by
    intro he; rw [he] at h; simp at h
  have : ((l.dropWhile p).reverse).getLast? = some c := by
    rw [← ht, List.getLast?_append_of_ne_nil t hne]; exact h
  rw [List.getLast?_reverse] at this
  exact head_dropWhile p _ c this

/-- The last character of the stripped list fails the predicate. -/
theorem stripEnds_getLast (p : Char → Bool) (l : List Char) (c : Char)
    (h : (stripEnds p l).getLast? = some c) : p c = false := by
  unfold stripEnds at h
  rw [List.getLast?_reverse] at h
  exact head_dropWhile p _ c h

/-- Structural shape of every sanitised name: only word characters and
hyphens, no two adjacent [-\s] characters, and no stripped character at
either end. -/
theorem sanitizeL_shape (l : List Char) :
    (∀ c ∈ sanitizeL l, isWordChar c = true ∨ c = '-') ∧
    List.Chain' (fun a c => isHyphenSpace a = false ∨ isHyphenSpace c = false) (sanitizeL l) ∧
    (∀ c, (sanitizeL l).head? = some c → isStripChar c = false) ∧
    (∀ c, (sanitizeL l).getLast? = some c → isStripChar c = false) := by
  refine ⟨?_, ?_, ?_, ?_⟩
  · intro c hc
    have hinf := stripEnds_segment isStripChar (collapseRuns ((normalizeNFKC l).filter keepChar))
    have hco : c ∈ collapseRuns ((normalizeNFKC l).filter keepChar) := hinf.subset hc
    rcases mem_collapseAux _ false c hco with h | ⟨h1, h2⟩
    · exact Or.inr h
    · exact Or.inl (word_of_keep_not_hs (List.of_mem_filter h1) h2)
  · exact List.Chain'.infix (chain_collapseAux ((normalizeNFKC l).filter keepChar) false)
      (stripEnds_segment isStripChar _)
  · exact fun c hc => stripEnds_head isStripChar _ c hc
  · exact fun c hc => stripEnds_getLast isStripChar _ c hc

/-- Success of pool_map when every job succeeds: one unit result per
job, in job order. -/
theorem pool_map_all_ok (f : (String × String) → Except PyErr Unit) :
    ∀ jobs : List (String × String), (∀ j ∈ jobs, f j = .ok ()) →
      pool_map f jobs = .ok (jobs.map fun _ => ()) := by
  intro jobs
  induction jobs with
  | nil => intro _; rfl
  | cons j rest ih =>
    intro h
    have hj := h j (List.mem_cons_self _ _)
    have hr := ih fun x hx => h x (List.mem_cons_of_mem _ hx)
    simp only [pool_map, List.map]
    rw [hj, hr]

/-! ### Claims -/

/-- Claim C1, counterexample: with three submitted jobs of which the
second hits an error HTTP status, the download phase does not produce
three terminal outcomes; pool map re-raises the exception of the failed
job, so the run halts without reporting the successes of the other two
jobs, even though each of them succeeds on its own. -/
theorem C1_counterexample :
    runAll envMixed jobsMixed = .error .httpError ∧
      worker envMixed ("a.mp4", "good") = .ok () ∧
      worker envMixed ("c.mp4", "good") = .ok () :=
  ⟨rfl, rfl, rfl⟩

/-- Claim C1, amended: only when every submitted job succeeds does the
download phase return one result per job; N jobs then yield exactly N
results in submission order. -/
theorem C1_all_success_all_results (env : String → Response)
    (jobs : List (String × String)) (h : ∀ j ∈ jobs, worker env j = .ok ()) :
    runAll env jobs = .ok (jobs.map fun _ => ()) ∧
      (jobs.map fun _ => ()).length = jobs.length := by
  refine ⟨pool_map_all_ok (worker env) jobs h, by simp⟩

/-- Claim C1, witness for the amended theorem at two succeeding jobs. -/
theorem C1_all_success_all_results_witness :
    runAll envGood [("a.mp4", "u1"), ("b.mp4", "u2")] =
        .ok (([("a.mp4", "u1"), ("b.mp4", "u2")] : List (String × String)).map fun _ => ()) ∧
      (([("a.mp4", "u1"), ("b.mp4", "u2")] : List (String × String)).map fun _ => ()).length =
        ([("a.mp4", "u1"), ("b.mp4", "u2")] : List (String × String)).length :=
  C1_all_success_all_results envGood [("a.mp4", "u1"), ("b.mp4", "u2")]
    (by intro j hj; fin_cases hj <;> rfl)

/-- Claim C2: the code is the slip. On a page whose single matching
metadata block has no title occurrence, get_videos raises an unhandled
IndexError from the unguarded first index instead of failing
explicitly, as evaluated here at the failing input. -/
theorem C2_missing_title_raises : get_videos pageNoTitle = .error .indexError := rfl

/-- Claim C3, counterexample: on the scenario page, get_videos itself
returns the urls with the escaped path separators still present, not
the unescaped form the claim states. -/
theorem C3_counterexample :
    get_videos pageTwoRes =
      .ok ([(720, "http:\\/\\/x\\/a.mp4"), (1080, "http:\\/\\/x\\/b.mp4")],
        some "My-Clip.mp4") ∧
      lookupDict 720 [(720, "http:\\/\\/x\\/a.mp4"), (1080, "http:\\/\\/x\\/b.mp4")] ≠
        some "http://x/a.mp4" :=
  ⟨rfl, by decide⟩

/-- Claim C3, amended: get_videos returns the resolution map with the
raw escaped urls and the filename My-Clip.mp4; the slash unescaping is
applied by main when the job is built, so the scheduled job for the
selected resolution 720 carries the unescaped url, and unescaping the
1080 entry likewise yields its unescaped form. -/
theorem C3_scenario_escaped_then_unescaped :
    get_videos pageTwoRes =
      .ok ([(720, "http:\\/\\/x\\/a.mp4"), (1080, "http:\\/\\/x\\/b.mp4")],
        some "My-Clip.mp4") ∧
      processPage pageTwoRes ["720"] = .ok (some ("My-Clip.mp4", "http://x/a.mp4"), []) ∧
      unescapeStr "http:\\/\\/x\\/a.mp4" = "http://x/a.mp4" ∧
      unescapeStr "http:\\/\\/x\\/b.mp4" = "http://x/b.mp4" :=
  ⟨rfl, rfl, rfl, rfl⟩

/-- Claim C4, counterexample: Python \w is Unicode-aware, so sanitize
keeps the Latin-1 letter in its input unchanged, and the result
contains a character outside the class of ASCII alphanumerics,
underscore, hyphen and space that the claim states. -/
theorem C4_counterexample :
    sanitize "é" = "é" ∧
      ((sanitize "é").data.all fun c => c.isAlphanum || c == '_' || c == '-' || c == ' ') =
        false :=
  ⟨rfl, by decide⟩

/-- Claim C4, amended: for every input string, sanitize produces only
word characters (letters, digits, underscore, Unicode-aware as in
Python \w) and hyphens, never two consecutive hyphens, and never a
hyphen or underscore at either end. -/
theorem C4_sanitize_shape (s : String) :
    (∀ c ∈ (sanitize s).data, isWordChar c = true ∨ c = '-') ∧
    List.Chain' (fun a b => ¬(a = '-' ∧ b = '-')) (sanitize s).data ∧
    (∀ c, (sanitize s).data.head? = some c → c ≠ '-' ∧ c ≠ '_') ∧
    (∀ c, (sanitize s).data.getLast? = some c → c ≠ '-' ∧ c ≠ '_') := by
  obtain ⟨hmem, hchain, hhead, hlast⟩ := sanitizeL_shape s.data
  have hdata : (sanitize s).data = sanitizeL s.data := rfl
  refine ⟨?_, ?_, ?_, ?_⟩
  · rw [hdata]; exact hmem
  · rw [hdata]
    refine hchain.imp ?_
    rintro a b hab ⟨ha, hb⟩
    rcases hab with h | h
    · subst ha; exact absurd h (by decide)
    · subst hb; exact absurd h (by decide)
  · rw [hdata]
    intro c hc
    have hs := hhead c hc
    constructor <;> rintro rfl <;> exact absurd hs (by decide)
  · rw [hdata]
    intro c hc
    have hs := hlast c hc
    constructor <;> rintro rfl <;> exact absurd hs (by decide)

/-- Claim C4, witness: the no-consecutive-hyphens component of the
amended theorem at a concrete input. -/
theorem C4_sanitize_shape_witness :
    List.Chain' (fun a b => ¬(a = '-' ∧ b = '-')) (sanitize "a - b!").data :=
  (C4_sanitize_shape "a - b!").2.1

/-- Claim C5: whenever the number of matching metadata blocks differs
from one, get_videos returns the empty map with no filename and raises
nothing. -/
theorem C5_extract_not_one_block (page : List Script)
    (h : (page.filter isVideoScript).length ≠ 1) :
    get_videos page = .ok ([], none) := by
  unfold get_videos
  cases hf : page.filter isVideoScript with
  | nil => rfl
  | cons a t =>
    cases t with
    | nil => rw [hf] at h; exact absurd rfl h
    | cons b t2 => rfl

/-- Claim C5, witness at a page with zero matching blocks. -/
theorem C5_extract_not_one_block_witness :
    (([] : List Script).filter isVideoScript).length ≠ 1 ∧
      get_videos [] = .ok ([], none) :=
  ⟨by decide, C5_extract_not_one_block [] (by decide)⟩

/-- Claim C7: when extraction yields exactly one resolution, the
pipeline selects it directly: the job carries the url of that
resolution and the external input source is left untouched, no line
being read. -/
theorem C7_singleton_no_prompt (page : List Script) (r : Int) (u f : String)
    (inputs : List String) (h : get_videos page = .ok ([(r, u)], some f)) :
    processPage page inputs = .ok (some (f, unescapeStr u), inputs) := by
  unfold processPage
  rw [h]
  rfl

/-- Claim C7, witness: a one-resolution page with pending input that
stays unread. -/
theorem C7_singleton_no_prompt_witness :
    get_videos pageSingle = .ok ([(720, "u")], some "T.mp4") ∧
      processPage pageSingle ["9"] = .ok (some ("T.mp4", "u"), ["9"]) :=
  ⟨rfl, C7_singleton_no_prompt pageSingle 720 "u" "T.mp4" ["9"] rfl⟩

/-- Claim C8: for a nonempty option set, whenever the selection loop
returns it returns a member of the option set, and any line that does
not parse to a member is rejected, the loop re-prompting on the rest of
the input. -/
theorem C8_select_member_and_reprompt (options : List Int) (h : options ≠ [])
    (inputs : List String) :
    (∀ r rest, get_resolution options inputs = some (r, rest) → r ∈ options) ∧
    (∀ i tl, inputs = i :: tl → isValidChoice options i = false →
      get_resolution options inputs = get_resolution options tl) := by
  constructor
  · induction inputs with
    | nil => intro r rest hr; simp [get_resolution] at hr
    | cons i tl ih =>
      intro r rest hr
      simp only [get_resolution] at hr
      cases hp : parsePyInt i with
      | none => simp only [hp] at hr; exact ih r rest hr
      | some n =>
        simp only [hp] at hr
        by_cases hcn : n ∈ options
        · rw [if_pos hcn] at hr
          injection hr with hr2
          cases hr2
          exact hcn
        · rw [if_neg hcn] at hr; exact ih r rest hr
  · intro i tl hi hv
    subst hi
    simp only [get_resolution]
    cases hp : parsePyInt i with
    | none => simp only [hp]
    | some n =>
      simp only [hp]
      have hn : ¬ n ∈ options := by
        simp only [isValidChoice, hp, decide_eq_false_iff_not] at hv
        exact hv
      rw [if_neg hn]

/-- Claim C8, witness: two invalid lines are rejected before the valid
member 1080 is accepted. -/
theorem C8_select_member_and_reprompt_witness :
    ([720, 1080] : List Int) ≠ [] ∧ (1080 : Int) ∈ ([720, 1080] : List Int) :=
  ⟨by decide,
    (C8_select_member_and_reprompt [720, 1080] (by decide) ["abc", "99", "1080"]).1
      1080 [] (by decide)⟩

/-- Claim C9: the code is the slip. On a page whose title sanitises to
the empty string but whose resolution map is nonempty, main checks only
the map, so a download job with the bare filename .mp4 is scheduled
instead of the page being skipped. -/
theorem C9_empty_name_job_scheduled :
    processPage pageEmptyTitle [] = .ok (some (".mp4", "u"), []) ∧
      sanitize "!!!" = "" :=
  ⟨rfl, rfl⟩

/-- Claim C10: an error HTTP status makes download_file raise before
the destination file is opened, leaving the filesystem exactly as it
was. -/
theorem C10_error_status_fs_unchanged (fs : FS) (resp : Response) (filename : String)
    (h : 400 ≤ resp.status ∧ resp.status < 600) :
    download_file fs resp filename = (.error .httpError, fs) := by
  unfold download_file
  rw [if_pos h]

/-- Claim C10, witness at a 404 response over the empty filesystem. -/
theorem C10_error_status_fs_unchanged_witness :
    (400 ≤ (404 : Nat) ∧ (404 : Nat) < 600) ∧
      download_file ([] : FS) ⟨404, none, [[1, 2]]⟩ "a.mp4" = (.error .httpError, ([] : FS)) :=
  ⟨by decide, C10_error_status_fs_unchanged [] ⟨404, none, [[1, 2]]⟩ "a.mp4" (by decide)⟩

end VKDL
